import Mathlib

/-!
Verification of the game-state engine of a small falling-block puzzle game.

The source is a JavaScript program (`src/scripts/main.js`, duplicated in
`src/unnamed/part_000`).  The engine state is a grid `board` of `ROWS` rows of
`COLS` cells (0 = empty, 1 = filled), an active piece (a 2D 0/1 layout) with an
anchor position `(px, py)`, a `score`, and an interval-driven game loop.

Modelling conventions:
* Cells are `Nat` (JavaScript stores 0/1; truthiness is `≠ 0`).
* Coordinates are `Int` (the JS code freely forms `px - 1`, `ny + r`, …).
* `collide` evaluates `board[y][x]` whenever the first three bound checks
  fail.  In JavaScript, `board[y]` is `undefined` for `y < 0` (or `y` past the
  end), so `board[y][x]` throws a TypeError there.  We model a throwing
  evaluation as `none`, a returned boolean as `some b`, preserving the
  iteration order (rows, then columns) and the early `return true`.
* `row[x]` with `0 ≤ x < COLS` but `x` past the row's end is `undefined`,
  which is falsy; we model that cell as 0.
-/

namespace Tetris

abbrev Cell := Nat
abbrev Row := List Cell
abbrev Shape := List Row
abbrev Board := List Row

/-- Source: `const COLS = 10` (board width). -/
def COLS : Nat := 10

/-- Source: `const ROWS = 20` (board height). -/
def ROWS : Nat := 20

/-- JS `board[y]`: the row when `0 ≤ y < board.length`, otherwise `undefined`
(modelled `none`; indexing into it throws). -/
def boardRow (board : Board) (y : Int) : Option Row :=
  if 0 ≤ y then board[y.toNat]? else none

/-- JS `row[x]` for `0 ≤ x` (an out-of-range read is `undefined`, which is
falsy, modelled as the empty cell 0). -/
def cellVal (row : Row) (x : Int) : Cell :=
  if 0 ≤ x then (row[x.toNat]?).getD 0 else 0

/-- The board cell at `(x, y)`, reading 0 outside the stored rows.  Used only
in specification statements (the executable `collide` below models the JS
lookup, including the throw). -/
def boardCell (board : Board) (x y : Int) : Cell :=
  match boardRow board y with
  | some row => cellVal row x
  | none => 0

/-- One occupied piece cell at absolute `(x, y)`, as tested by the body of
`collide`: `x < 0 || x >= COLS || y >= ROWS || board[y][x]`.  `some true` is a
collision, `some false` lets the loop continue, `none` is the TypeError thrown
by `board[y][x]` when `board[y]` is `undefined`. -/
def checkCell (board : Board) (x y : Int) : Option Bool :=
  if x < 0 ∨ (COLS : Int) ≤ x ∨ (ROWS : Int) ≤ y then some true
  else
    match boardRow board y with
    | none => none
    | some row => some (cellVal row x != 0)

/-- Inner loop of `collide`: columns `c0, c0+1, …` of one shape row, at board
row `y`; skips empty cells, returns at the first collision or throw. -/
def collideRow (board : Board) (nx y : Int) : Row → Nat → Option Bool
  | [], _ => some false
  | v :: vs, c =>
    if v ≠ 0 then
      match checkCell board (nx + (c : Int)) y with
      | none => none
      | some true => some true
      | some false => collideRow board nx y vs (c + 1)
    else collideRow board nx y vs (c + 1)

/-- Outer loop of `collide`: shape rows `r0, r0+1, …`. -/
def collideShape (board : Board) (nx ny : Int) : Shape → Nat → Option Bool
  | [], _ => some false
  | row :: rows, r =>
    match collideRow board nx (ny + (r : Int)) row 0 with
    | none => none
    | some true => some true
    | some false => collideShape board nx ny rows (r + 1)

/-- Source `collide(nx, ny, np)`: scans the occupied cells of `np` in row-major
order; `some true` at the first cell that is out of bounds (left, right,
bottom) or overlaps a filled board cell, `none` if `board[y][x]` throws first,
`some false` otherwise.  The board is passed explicitly (it is a global in the
source). -/
def collide (board : Board) (np : Shape) (nx ny : Int) : Option Bool :=
  collideShape board nx ny np 0

/-- Occupied column indices of one shape row, starting at index `c0`. -/
def occCellsRow : Row → Nat → List Nat
  | [], _ => []
  | v :: vs, c => (if v ≠ 0 then [c] else []) ++ occCellsRow vs (c + 1)

/-- Occupied `(row, col)` positions of the shape rows, starting at row `r0`. -/
def occCellsAux : Shape → Nat → List (Nat × Nat)
  | [], _ => []
  | row :: rows, r =>
    (occCellsRow row 0).map (fun c => (r, c)) ++ occCellsAux rows (r + 1)

/-- The occupied local `(row, col)` positions of a shape, in the row-major
order in which `collide` visits them. -/
def occCells (np : Shape) : List (Nat × Nat) := occCellsAux np 0

/-- An occupied cell at local `(r, c)` maps outside the left, right or bottom
boundary (`x < 0`, `x ≥ COLS`, or `y ≥ ROWS`). -/
def oob (nx ny : Int) (rc : Nat × Nat) : Prop :=
  nx + (rc.2 : Int) < 0 ∨ (COLS : Int) ≤ nx + (rc.2 : Int) ∨
    (ROWS : Int) ≤ ny + (rc.1 : Int)

instance (nx ny : Int) (rc : Nat × Nat) : Decidable (oob nx ny rc) := by
  unfold oob; infer_instance

/-- An occupied cell at local `(r, c)` maps strictly inside all four
boundaries of the board. -/
def inBounds (nx ny : Int) (rc : Nat × Nat) : Prop :=
  0 ≤ nx + (rc.2 : Int) ∧ nx + (rc.2 : Int) < (COLS : Int) ∧
    0 ≤ ny + (rc.1 : Int) ∧ ny + (rc.1 : Int) < (ROWS : Int)

instance (nx ny : Int) (rc : Nat × Nat) : Decidable (inBounds nx ny rc) := by
  unfold inBounds; infer_instance

/-- Source shape catalog `SHAPES.I`. -/
def shapeI : Shape := [[1, 1, 1, 1]]

/-- Source shape catalog `SHAPES.O`. -/
def shapeO : Shape := [[1, 1], [1, 1]]

/-- Source shape catalog `SHAPES.L`. -/
def shapeL : Shape := [[1, 0], [1, 0], [1, 1]]

/-- Source shape catalog `SHAPES.J`. -/
def shapeJ : Shape := [[0, 1], [0, 1], [1, 1]]

/-- Source shape catalog `SHAPES.T`. -/
def shapeT : Shape := [[1, 1, 1], [0, 1, 0]]

/-- Source shape catalog `SHAPES.S`. -/
def shapeS : Shape := [[0, 1, 1], [1, 1, 0]]

/-- Source shape catalog `SHAPES.Z`. -/
def shapeZ : Shape := [[1, 1, 0], [0, 1, 1]]

/-- The seven catalog shapes (`Object.keys(SHAPES)` order). -/
def SHAPES : List Shape := [shapeI, shapeO, shapeL, shapeJ, shapeT, shapeS, shapeZ]

/-- Source `newBoard()`: `ROWS` rows of `COLS` zeros. -/
def newBoard : Board := List.replicate ROWS (List.replicate COLS 0)

/-- An all-empty row of width `COLS`. -/
def emptyRow : Row := List.replicate COLS 0

/-- Specification value of the test of one occupied cell at column offset `c`
of a shape row placed at board row `y`: some boundary is violated, or the
board cell is filled. -/
def cellHitRowB (board : Board) (nx y : Int) (c : Nat) : Bool :=
  decide (nx + (c : Int) < 0) || decide ((COLS : Int) ≤ nx + (c : Int)) ||
    decide ((ROWS : Int) ≤ y) || (boardCell board (nx + (c : Int)) y != 0)

/-- Specification value of the test of one occupied cell at local position
`rc` of a shape anchored at `(nx, ny)`. -/
def cellHit (board : Board) (nx ny : Int) (rc : Nat × Nat) : Bool :=
  cellHitRowB board nx (ny + (rc.1 : Int)) rc.2

/-- Shape used in the C1 counterexample: occupied cells at local (0,1) and
(1,0). -/
def cexShape : Shape := [[0, 1], [1, 0]]

/-- Source `clearLines()` acting on a board: keep the rows that still contain
an empty cell (`board.filter(row => row.some(v => !v))`), then the `while`
loop prepends empty rows one at a time until the row count is back to `ROWS`
(`ROWS - kept.length` iterations, 0 when nothing was removed), counting them
in `cleared`.  Returns the new board and `cleared`; the caller adds
`cleared * 10` to the score. -/
def clearLines (board : Board) : Board × Nat :=
  let kept := board.filter (fun row => row.any (fun v => v == 0))
  (List.replicate (ROWS - kept.length) emptyRow ++ kept, ROWS - kept.length)

/-- JS `board[y][x] = 1`.  Under `merge`'s precondition (the piece was placed
after a collision check) every written cell is in range; an out-of-range
write is modelled as a no-op (`List.set` ignores out-of-range indices). -/
def setCell (board : Board) (x y : Int) : Board :=
  if 0 ≤ y ∧ 0 ≤ x then
    match board[y.toNat]? with
    | some row => board.set y.toNat (row.set x.toNat 1)
    | none => board
  else board

/-- Source `merge()`: copy every occupied cell of the piece into the board, in
row-major order. -/
def mergeBoard (board : Board) (piece : Shape) (px py : Int) : Board :=
  (occCells piece).foldl (fun b rc => setCell b (px + (rc.2 : Int)) (py + (rc.1 : Int))) board

/-- Source `resetPiece()` column: `Math.floor(COLS / 2) - 1 = 4`. -/
def spawnPx : Int := (COLS : Int) / 2 - 1

/-- Source `rotate(p)` without the `p[0]` access: iterate the column indices
of the first row (`p[0].map((_, i) => ...)`), build column `i` of `p`
(`p.map(r => r[i])`), and reverse the row order.  For the rectangular shapes
the game rotates, `r.getD i 0` is exactly `r[i]`. -/
def rotateFun (p : Shape) : Shape :=
  ((List.range (p.headD []).length).map (fun i => p.map (fun r => r.getD i 0))).reverse

/-- Source `rotate(p)`: on the empty layout `p = []`, the JS `p[0]` is
`undefined` and `.map` throws (`none`); otherwise the transpose-then-reverse
of `rotateFun`. -/
def rotate (p : Shape) : Option Shape :=
  match p with
  | [] => none
  | _ :: _ => some (rotateFun p)

/-- The cell of a 2D layout at row `i`, column `j` (0 outside). -/
def cellOf (p : Shape) (i j : Nat) : Cell := (p.getD i []).getD j 0

/-- Game phase: `Running` while the interval loop is scheduled, `GameOver`
after `gameOver()` cleared it (the source tracks this through the `loop`
handle rather than a variable). -/
inductive Phase where
  | Running : Phase
  | GameOver : Phase
deriving DecidableEq, Repr

/-- The engine state: the globals `board`, `piece`, `px`, `py`, `score` of the
source, plus the phase.  The score is a `Nat`: the source initialises it to 0
and only ever adds `cleared * 10`. -/
structure GameState where
  board : Board
  piece : Shape
  px : Int
  py : Int
  score : Nat
  phase : Phase
deriving DecidableEq, Repr

/-- Source `tick()`, parameterised by the shape `next` that the random
`newPiece()` inside `resetPiece()` will produce.  The second component
records whether the branch taken reaches the final `draw()` call: the
game-over branch exits with `return gameOver()` before `draw()`. -/
def tickFull (next : Shape) (s : GameState) : Option (GameState × Bool) :=
  match collide s.board s.piece s.px (s.py + 1) with
  | none => none
  | some false => some ({ s with py := s.py + 1 }, true)
  | some true =>
    let b1 := mergeBoard s.board s.piece s.px s.py
    let cl := clearLines b1
    let score2 := s.score + cl.2 * 10
    match collide cl.1 next spawnPx 0 with
    | none => none
    | some true =>
      some ({ board := cl.1, piece := next, px := spawnPx, py := 0,
              score := score2, phase := .GameOver }, false)
    | some false =>
      some ({ board := cl.1, piece := next, px := spawnPx, py := 0,
              score := score2, phase := s.phase }, true)

/-- `tick()` as a state transformer (the drawing flag dropped). -/
def tick (next : Shape) (s : GameState) : Option GameState :=
  (tickFull next s).map Prod.fst

/-- ArrowLeft: `if(!collide(px - 1, py)) px--`. -/
def moveLeft (s : GameState) : Option GameState :=
  match collide s.board s.piece (s.px - 1) s.py with
  | none => none
  | some true => some s
  | some false => some { s with px := s.px - 1 }

/-- ArrowRight: `if(!collide(px + 1, py)) px++`. -/
def moveRight (s : GameState) : Option GameState :=
  match collide s.board s.piece (s.px + 1) s.py with
  | none => none
  | some true => some s
  | some false => some { s with px := s.px + 1 }

/-- ArrowDown: `if(!collide(px, py + 1)) py++`. -/
def softDrop (s : GameState) : Option GameState :=
  match collide s.board s.piece s.px (s.py + 1) with
  | none => none
  | some true => some s
  | some false => some { s with py := s.py + 1 }

/-- ArrowUp: `const np = rotate(piece); if(!collide(px, py, np)) piece = np`. -/
def rotateCW (s : GameState) : Option GameState :=
  match rotate s.piece with
  | none => none
  | some np =>
    match collide s.board np s.px s.py with
    | none => none
    | some true => some s
    | some false => some { s with piece := np }

/-- Source `start()` with the random first piece as a parameter: fresh empty
board, score 0, piece spawned at `(spawnPx, 0)`, loop scheduled. -/
def initState (p : Shape) : GameState :=
  { board := newBoard, piece := p, px := spawnPx, py := 0, score := 0, phase := .Running }

/-- The states reachable in a game: `start()` with any catalog shape, then any
interleaving of ticks (which the scheduler fires only while the loop is
scheduled, i.e. while Running, each spawning some catalog shape) and keyboard
commands (which the source accepts in any phase). -/
inductive Reachable : GameState → Prop where
  | init (p : Shape) (hp : p ∈ SHAPES) : Reachable (initState p)
  | tickStep (next : Shape) (s s' : GameState) (hn : next ∈ SHAPES) (hs : Reachable s)
      (hrun : s.phase = .Running) (h : tick next s = some s') : Reachable s'
  | leftStep (s s' : GameState) (hs : Reachable s) (h : moveLeft s = some s') : Reachable s'
  | rightStep (s s' : GameState) (hs : Reachable s) (h : moveRight s = some s') : Reachable s'
  | dropStep (s s' : GameState) (hs : Reachable s) (h : softDrop s = some s') : Reachable s'
  | rotStep (s s' : GameState) (hs : Reachable s) (h : rotateCW s = some s') : Reachable s'

/-- Board for the game-over scenario: row 0 has a single block in column 4
(the spawn column), every other row empty. -/
def c3Board : Board := [0, 0, 0, 0, 1, 0, 0, 0, 0, 0] :: List.replicate 19 emptyRow

/-- Game-over scenario state: the O-piece sits at `(0, 18)` on `c3Board` and
cannot descend; score 30, running. -/
def c3Before : GameState :=
  { board := c3Board, piece := shapeO, px := 0, py := 18, score := 30, phase := .Running }

/-- The state after the game-over tick from `c3Before` with an O-piece
spawned: the old piece merged (no row completed), the new piece at the spawn
position overlapping the pre-filled cell `(0, 4)`. -/
def c3After : GameState :=
  { board := (clearLines (mergeBoard c3Board shapeO 0 18)).1, piece := shapeO,
    px := spawnPx, py := 0, score := 30, phase := .GameOver }

/-- Concrete board for the C2 witness: 19 empty rows above one full row. -/
def c2Board : Board := List.replicate 19 emptyRow ++ [List.replicate COLS 1]

example : collide newBoard shapeI 4 0 = some false := by decide
example : collide newBoard shapeI (-1) 0 = some true := by decide
example : collide newBoard shapeI 0 (-1) = none := by decide
example : collide newBoard shapeI 6 19 = some false := by decide
example : collide newBoard shapeI 6 20 = some true := by decide


lemma checkCell_eq (board : Board) (nx y : Int) (c : Nat)
    (hb : board.length = ROWS) (hy : 0 ≤ y) :
    checkCell board (nx + (c : Int)) y = some (cellHitRowB board nx y c) := by
  unfold checkCell cellHitRowB
  by_cases h : nx + (c : Int) < 0 ∨ (COLS : Int) ≤ nx + (c : Int) ∨ (ROWS : Int) ≤ y
  · rw [if_pos h]
    rcases h with h | h | h <;> simp [h]
  · rw [if_neg h]
    push_neg at h
    obtain ⟨h1, h2, h3⟩ := h
    have hlt : y.toNat < board.length := by rw [hb]; unfold ROWS at h3 ⊢; omega
    have hrow : boardRow board y = some (board.get ⟨y.toNat, hlt⟩) := by
      simp [boardRow, hy, List.getElem?_eq_getElem hlt, List.get_eq_getElem]
    rw [hrow]
    have e1 : ¬ nx + (c : Int) < 0 := not_lt.mpr h1
    have e2 : ¬ (COLS : Int) ≤ nx + (c : Int) := not_le.mpr h2
    have e3 : ¬ (ROWS : Int) ≤ y := not_le.mpr h3
    simp [boardCell, hrow, e1, e2, e3]

lemma collideRow_eq_any (board : Board) (nx y : Int) (hb : board.length = ROWS)
    (row : Row) (c0 : Nat) (hy : occCellsRow row c0 ≠ [] → 0 ≤ y) :
    collideRow board nx y row c0 =
      some ((occCellsRow row c0).any (fun c => cellHitRowB board nx y c)) := by
  induction row generalizing c0 with
  | nil => simp [collideRow, occCellsRow]
  | cons v vs ih =>
    by_cases hv : v ≠ 0
    · have hne : occCellsRow (v :: vs) c0 ≠ [] := by simp [occCellsRow, hv]
      have hy0 : 0 ≤ y := hy hne
      have hocc : occCellsRow (v :: vs) c0 = c0 :: occCellsRow vs (c0 + 1) := by
        simp [occCellsRow, hv]
      have hc := checkCell_eq board nx y c0 hb hy0
      cases hbit : cellHitRowB board nx y c0 with
      | false =>
        rw [hbit] at hc
        simp only [collideRow, if_pos hv, hc]
        rw [hocc, List.any_cons, hbit, Bool.false_or]
        exact ih (c0 + 1) (fun _ => hy0)
      | true =>
        rw [hbit] at hc
        simp only [collideRow, if_pos hv, hc]
        rw [hocc, List.any_cons, hbit, Bool.true_or]
    · have hocc : occCellsRow (v :: vs) c0 = occCellsRow vs (c0 + 1) := by
        simp [occCellsRow, hv]
      simp only [collideRow, if_neg hv]
      rw [hocc]
      exact ih (c0 + 1) (fun hne => hy (by rw [hocc]; exact hne))

lemma any_map_pair (l : List Nat) (r0 : Nat) (f : Nat × Nat → Bool) :
    ((l.map (fun c => (r0, c))).any f) = l.any (fun c => f (r0, c)) := by
  induction l with
  | nil => rfl
  | cons a l ih => simp only [List.map_cons, List.any_cons, ih]

lemma collideShape_eq_any (board : Board) (nx ny : Int) (hb : board.length = ROWS)
    (rows : Shape) (r0 : Nat)
    (hy : ∀ rc ∈ occCellsAux rows r0, 0 ≤ ny + (rc.1 : Int)) :
    collideShape board nx ny rows r0 =
      some ((occCellsAux rows r0).any (fun rc => cellHitRowB board nx (ny + (rc.1 : Int)) rc.2)) := by
  induction rows generalizing r0 with
  | nil => simp [collideShape, occCellsAux]
  | cons row rest ih =>
    have hocc : occCellsAux (row :: rest) r0 =
        (occCellsRow row 0).map (fun c => (r0, c)) ++ occCellsAux rest (r0 + 1) := rfl
    have hyrow : occCellsRow row 0 ≠ [] → 0 ≤ ny + (r0 : Int) := by
      intro hne
      obtain ⟨c, hcmem⟩ := List.exists_mem_of_ne_nil _ hne
      exact hy (r0, c) (by rw [hocc]; exact List.mem_append_left _ (List.mem_map_of_mem _ hcmem))
    have hrow := collideRow_eq_any board nx (ny + (r0 : Int)) hb row 0 hyrow
    have hmap : ((occCellsRow row 0).map (fun c => (r0, c))).any
        (fun rc => cellHitRowB board nx (ny + (rc.1 : Int)) rc.2) =
        (occCellsRow row 0).any (fun c => cellHitRowB board nx (ny + (r0 : Int)) c) := by
      rw [any_map_pair]
    cases hbit : (occCellsRow row 0).any (fun c => cellHitRowB board nx (ny + (r0 : Int)) c) with
    | false =>
      rw [hbit] at hrow
      simp only [collideShape, hrow]
      rw [hocc, List.any_append, hmap, hbit, Bool.false_or]
      exact ih (r0 + 1) (fun rc hrc => hy rc (by rw [hocc]; exact List.mem_append_right _ hrc))
    | true =>
      rw [hbit] at hrow
      simp only [collideShape, hrow]
      rw [hocc, List.any_append, hmap, hbit, Bool.true_or]

/-- Under the conditions in which the game ever calls it (a board of `ROWS`
rows and every occupied cell at `y ≥ 0`), `collide` returns exactly whether
some occupied cell violates a boundary or overlaps a filled board cell. -/
lemma collide_eq_any (board : Board) (np : Shape) (nx ny : Int)
    (hb : board.length = ROWS)
    (hy : ∀ rc ∈ occCells np, 0 ≤ ny + (rc.1 : Int)) :
    collide board np nx ny = some ((occCells np).any (cellHit board nx ny)) :=
  collideShape_eq_any board nx ny hb np 0 hy

lemma collideRow_none_char (board : Board) (nx y : Int) (hb : board.length = ROWS)
    (row : Row) (c0 : Nat)
    (hno : ∀ c ∈ occCellsRow row c0,
      ¬(nx + (c : Int) < 0 ∨ (COLS : Int) ≤ nx + (c : Int) ∨ (ROWS : Int) ≤ y))
    (hcell : ∀ c ∈ occCellsRow row c0, boardCell board (nx + (c : Int)) y = 0) :
    collideRow board nx y row c0 =
      if occCellsRow row c0 = [] ∨ 0 ≤ y then some false else none := by
  induction row generalizing c0 with
  | nil => simp [collideRow, occCellsRow]
  | cons v vs ih =>
    by_cases hv : v ≠ 0
    · have hocc : occCellsRow (v :: vs) c0 = c0 :: occCellsRow vs (c0 + 1) := by
        simp [occCellsRow, hv]
      have hmem : c0 ∈ occCellsRow (v :: vs) c0 := by
        rw [hocc]; exact List.mem_cons_self _ _
      have hno0 := hno c0 hmem
      by_cases hy : 0 ≤ y
      · have hchk : checkCell board (nx + (c0 : Int)) y = some false := by
          rw [checkCell_eq board nx y c0 hb hy]
          have h1 : ¬ nx + (c0 : Int) < 0 := fun h => hno0 (Or.inl h)
          have h2 : ¬ (COLS : Int) ≤ nx + (c0 : Int) := fun h => hno0 (Or.inr (Or.inl h))
          have h3 : ¬ (ROWS : Int) ≤ y := fun h => hno0 (Or.inr (Or.inr h))
          have h4 := hcell c0 hmem
          simp [cellHitRowB, h1, h2, h3, h4]
        simp only [collideRow, if_pos hv, hchk]
        rw [ih (c0 + 1)
          (fun c hc => hno c (by rw [hocc]; exact List.mem_cons_of_mem _ hc))
          (fun c hc => hcell c (by rw [hocc]; exact List.mem_cons_of_mem _ hc))]
        simp [hy]
      · have hchk : checkCell board (nx + (c0 : Int)) y = none := by
          unfold checkCell
          rw [if_neg hno0]
          have hrownone : boardRow board y = none := by simp [boardRow, hy]
          rw [hrownone]
        simp only [collideRow, if_pos hv, hchk]
        have hcond : ¬(occCellsRow (v :: vs) c0 = [] ∨ 0 ≤ y) := by
          simp [hocc, hy]
        rw [if_neg hcond]
    · have hocc : occCellsRow (v :: vs) c0 = occCellsRow vs (c0 + 1) := by
        simp [occCellsRow, hv]
      simp only [collideRow, if_neg hv]
      rw [hocc]
      exact ih (c0 + 1) (fun c hc => hno c (by rw [hocc]; exact hc))
        (fun c hc => hcell c (by rw [hocc]; exact hc))

lemma collideShape_none_char (board : Board) (nx ny : Int) (hb : board.length = ROWS)
    (rows : Shape) (r0 : Nat)
    (hno : ∀ rc ∈ occCellsAux rows r0, ¬ oob nx ny rc)
    (hcell : ∀ rc ∈ occCellsAux rows r0,
      boardCell board (nx + (rc.2 : Int)) (ny + (rc.1 : Int)) = 0) :
    collideShape board nx ny rows r0 =
      if ∀ rc ∈ occCellsAux rows r0, 0 ≤ ny + (rc.1 : Int) then some false else none := by
  induction rows generalizing r0 with
  | nil => simp [collideShape, occCellsAux]
  | cons row rest ih =>
    have hocc : occCellsAux (row :: rest) r0 =
        (occCellsRow row 0).map (fun c => (r0, c)) ++ occCellsAux rest (r0 + 1) := rfl
    have hnoRow : ∀ c ∈ occCellsRow row 0,
        ¬(nx + (c : Int) < 0 ∨ (COLS : Int) ≤ nx + (c : Int) ∨
          (ROWS : Int) ≤ ny + (r0 : Int)) := by
      intro c hc
      have h := hno (r0, c)
        (by rw [hocc]; exact List.mem_append_left _ (List.mem_map_of_mem _ hc))
      simpa [oob] using h
    have hcellRow : ∀ c ∈ occCellsRow row 0,
        boardCell board (nx + (c : Int)) (ny + (r0 : Int)) = 0 := by
      intro c hc
      exact hcell (r0, c)
        (by rw [hocc]; exact List.mem_append_left _ (List.mem_map_of_mem _ hc))
    have hrow := collideRow_none_char board nx (ny + (r0 : Int)) hb row 0 hnoRow hcellRow
    have hnoRest : ∀ rc ∈ occCellsAux rest (r0 + 1), ¬ oob nx ny rc :=
      fun rc hrc => hno rc (by rw [hocc]; exact List.mem_append_right _ hrc)
    have hcellRest : ∀ rc ∈ occCellsAux rest (r0 + 1),
        boardCell board (nx + (rc.2 : Int)) (ny + (rc.1 : Int)) = 0 :=
      fun rc hrc => hcell rc (by rw [hocc]; exact List.mem_append_right _ hrc)
    by_cases hemp : occCellsRow row 0 = []
    · rw [hemp] at hrow
      simp only [true_or, if_pos] at hrow
      simp only [collideShape, hrow]
      rw [ih (r0 + 1) hnoRest hcellRest, hocc, hemp]
      simp only [List.map_nil, List.nil_append]
    · by_cases hy : 0 ≤ ny + (r0 : Int)
      · have hrowval : collideRow board nx (ny + (r0 : Int)) row 0 = some false := by
          rw [hrow, if_pos (Or.inr hy)]
        simp only [collideShape, hrowval]
        rw [ih (r0 + 1) hnoRest hcellRest]
        have hiff : (∀ rc ∈ occCellsAux rest (r0 + 1), 0 ≤ ny + (rc.1 : Int)) ↔
            (∀ rc ∈ occCellsAux (row :: rest) r0, 0 ≤ ny + (rc.1 : Int)) := by
          constructor
          · intro h rc hrc
            rw [hocc] at hrc
            rcases List.mem_append.mp hrc with hl | hr
            · obtain ⟨c, _, rfl⟩ := List.mem_map.mp hl
              exact hy
            · exact h rc hr
          · intro h rc hrc
            exact h rc (by rw [hocc]; exact List.mem_append_right _ hrc)
        exact if_congr hiff rfl rfl
      · have hrowval : collideRow board nx (ny + (r0 : Int)) row 0 = none := by
          rw [hrow, if_neg (by simp [hemp, hy])]
        simp only [collideShape, hrowval]
        rw [if_neg]
        intro hall
        obtain ⟨c, hc⟩ := List.exists_mem_of_ne_nil _ hemp
        exact hy (hall (r0, c)
          (by rw [hocc]; exact List.mem_append_left _ (List.mem_map_of_mem _ hc)))


/-- C1 (amended).  On a board of `ROWS` rows, and provided no occupied cell of
the shape maps to an absolute row `y < 0` (at such a cell `board[y][x]` throws
instead), `collide` returns true whenever some occupied cell maps to `x < 0`,
`x ≥ COLS` or `y ≥ ROWS`, regardless of the board's contents; and when every
occupied cell lies in bounds it returns true exactly when some occupied cell
lands on an occupied board cell. -/
theorem C1_main (board : Board) (np : Shape) (nx ny : Int)
    (hb : board.length = ROWS)
    (hy : ∀ rc ∈ occCells np, 0 ≤ ny + (rc.1 : Int)) :
    ((∃ rc ∈ occCells np, oob nx ny rc) → collide board np nx ny = some true) ∧
    ((∀ rc ∈ occCells np, inBounds nx ny rc) →
      (collide board np nx ny = some true ↔
        ∃ rc ∈ occCells np, boardCell board (nx + (rc.2 : Int)) (ny + (rc.1 : Int)) ≠ 0)) := by
  have hmain := collide_eq_any board np nx ny hb hy
  constructor
  · rintro ⟨rc, hmem, hoob⟩
    rw [hmain]
    have hhit : cellHit board nx ny rc = true := by
      rcases hoob with h | h | h <;> simp [cellHit, cellHitRowB, h]
    rw [List.any_eq_true.mpr ⟨rc, hmem, hhit⟩]
  · intro hin
    rw [hmain]
    constructor
    · intro h
      have hany : (occCells np).any (cellHit board nx ny) = true := by
        injection h
      obtain ⟨rc, hmem, hhit⟩ := List.any_eq_true.mp hany
      refine ⟨rc, hmem, ?_⟩
      obtain ⟨i1, i2, i3, i4⟩ := hin rc hmem
      simpa [cellHit, cellHitRowB, not_lt.mpr i1, not_le.mpr i2, not_le.mpr i4] using hhit
    · rintro ⟨rc, hmem, hne⟩
      rw [List.any_eq_true.mpr ⟨rc, hmem, by simp [cellHit, cellHitRowB, hne]⟩]

/-- C1 counterexample.  The shape `[[0,1],[1,0]]` anchored at `(-1, -1)` on
the empty board has an occupied cell (local `(1,0)`) mapping to `x = -1 < 0`,
so the claim as stated demands `collide` return true; but the cell visited
first (local `(0,1)`) maps to `(0, -1)` and the `board[-1][0]` lookup throws
(`none`), so `collide` does not return true. -/
theorem C1_counterexample :
    ((1 : Nat), (0 : Nat)) ∈ occCells cexShape ∧ oob (-1) (-1) (1, 0) ∧
      collide newBoard cexShape (-1) (-1) = none ∧
      collide newBoard cexShape (-1) (-1) ≠ some true := by decide

/-- C1 witness: the I-piece anchored at `(-1, 0)` on the empty board has its
leftmost occupied cell at `x = -1`, and `collide` returns true. -/
theorem C1_witness : collide newBoard shapeI (-1) 0 = some true :=
  (C1_main newBoard shapeI (-1) 0 (by decide) (by decide)).1 ⟨(0, 0), by decide, by decide⟩

/-- C5 (amended).  `collide` performs no `y < 0` bounds check: on a board of
`ROWS` rows, if no occupied cell of the shape violates the left, right or
bottom boundary and no occupied cell overlaps a filled board cell, then a cell
with `y < 0` never causes `collide` to return true — but `collide` is not
total there: it throws (returns `none`, the modelled TypeError of
`board[y][x]`) when some occupied cell maps to `y < 0`, and returns false when
every occupied cell has `y ≥ 0`. -/
theorem C5_main (board : Board) (np : Shape) (nx ny : Int)
    (hb : board.length = ROWS)
    (hno : ∀ rc ∈ occCells np, ¬ oob nx ny rc)
    (hcell : ∀ rc ∈ occCells np,
      boardCell board (nx + (rc.2 : Int)) (ny + (rc.1 : Int)) = 0) :
    ((∃ rc ∈ occCells np, ny + (rc.1 : Int) < 0) → collide board np nx ny = none) ∧
    ((∀ rc ∈ occCells np, 0 ≤ ny + (rc.1 : Int)) → collide board np nx ny = some false) := by
  have hchar := collideShape_none_char board nx ny hb np 0 hno hcell
  constructor
  · rintro ⟨rc, hmem, hlt⟩
    rw [show collide board np nx ny = collideShape board nx ny np 0 from rfl, hchar, if_neg]
    intro hall
    exact absurd (hall rc hmem) (not_le.mpr hlt)
  · intro hall
    rw [show collide board np nx ny = collideShape board nx ny np 0 from rfl, hchar]
    exact if_pos hall

/-- C5 counterexample.  A single-cell shape anchored at `(0, -1)` on the empty
board maps its only occupied cell to `y = -1` with `x = 0` in range; the claim
as stated says `collide` is total and returns false, but the `board[-1][0]`
lookup throws (`none`). -/
theorem C5_counterexample :
    collide newBoard [[1]] 0 (-1) = none ∧
      collide newBoard [[1]] 0 (-1) ≠ some false := by decide

/-- C5 witness: the amended theorem applied to the single-cell shape at
`(0, -1)` on the empty board. -/
theorem C5_witness : collide newBoard [[1]] 0 (-1) = none :=
  (C5_main newBoard [[1]] 0 (-1) (by decide) (by decide) (by decide)).1
    ⟨(0, 0), by decide, by decide⟩


example : tick shapeO c3Before = some c3After := by decide
example : tickFull shapeO c3Before = some (c3After, false) := by decide
example : tickFull shapeO (initState shapeI) =
    some ({ initState shapeI with py := 1 }, true) := by decide
example : rotate shapeL = some [[0, 0, 1], [1, 1, 1]] := by decide
example : ∀ p ∈ SHAPES, collide newBoard p spawnPx 0 = some false := by decide

lemma not_any_zero (row : Row) :
    (!(row.any (fun v => v == 0))) = row.all (fun v => v != 0) := by
  induction row with
  | nil => rfl
  | cons v vs ih =>
    simp only [List.any_cons, List.all_cons, Bool.not_or]
    rw [ih]
    simp [bne]

/-- C2 (as claimed).  On a board of `ROWS` rows of width `COLS`, `clearLines`
keeps exactly the non-full rows in their original relative order, prepends
empty rows of width `COLS` until the row count is `ROWS` again, reports the
number of full rows as the cleared count, and hence never changes the board's
dimensions. -/
theorem C2_main (board : Board) (hlen : board.length = ROWS)
    (hw : ∀ row ∈ board, row.length = COLS) :
    (clearLines board).1.length = ROWS ∧
    (∀ row ∈ (clearLines board).1, row.length = COLS) ∧
    (clearLines board).1 = List.replicate (clearLines board).2 emptyRow ++
      board.filter (fun row => row.any (fun v => v == 0)) ∧
    (clearLines board).2 = (board.filter (fun row => row.all (fun v => v != 0))).length := by
  have hk : (board.filter (fun row => row.any (fun v => v == 0))).length ≤ ROWS := by
    rw [← hlen]; exact List.length_filter_le _ _
  have hsplit := List.length_eq_length_filter_add (l := board)
    (fun row => row.any (fun v => v == 0))
  have hfull : board.filter (fun row => !(row.any (fun v => v == 0))) =
      board.filter (fun row => row.all (fun v => v != 0)) :=
    List.filter_congr (fun row _ => not_any_zero row)
  refine ⟨?_, ?_, rfl, ?_⟩
  · simp only [clearLines, List.length_append, List.length_replicate]
    omega
  · intro row hrow
    simp only [clearLines] at hrow
    rcases List.mem_append.mp hrow with hl | hr
    · rw [List.eq_of_mem_replicate hl]
      exact List.length_replicate _ _
    · exact hw row (List.mem_filter.mp hr).1
  · show ROWS - (board.filter (fun row => row.any (fun v => v == 0))).length = _
    rw [← hfull]
    omega


/-- C2 witness: on a board whose bottom row is full, `clearLines` keeps the
dimensions and clears exactly one row. -/
theorem C2_witness : (clearLines c2Board).1.length = ROWS ∧ (clearLines c2Board).2 = 1 := by
  have h := C2_main c2Board (by decide) (by decide)
  refine ⟨h.1, ?_⟩
  rw [h.2.2.2]
  decide

/-- C3 (as claimed).  A tick sends a Running state to GameOver exactly when
the piece can no longer descend and the freshly spawned piece collides at the
spawn position; the keyboard commands never change the phase; and in the
concrete scenario (`c3Before`: spawn cell pre-filled in row 0, locking piece
completing no row) the tick enters GameOver with the score unchanged at 30. -/
theorem C3_main :
    (∀ (next : Shape) (s s' : GameState), s.phase = .Running → tick next s = some s' →
      (s'.phase = .GameOver ↔
        (collide s.board s.piece s.px (s.py + 1) = some true ∧
         collide (clearLines (mergeBoard s.board s.piece s.px s.py)).1 next spawnPx 0 =
           some true))) ∧
    (∀ s s', moveLeft s = some s' → s'.phase = s.phase) ∧
    (∀ s s', moveRight s = some s' → s'.phase = s.phase) ∧
    (∀ s s', softDrop s = some s' → s'.phase = s.phase) ∧
    (∀ s s', rotateCW s = some s' → s'.phase = s.phase) ∧
    ((tick shapeO c3Before).map (fun t => (t.phase, t.score)) =
      some (Phase.GameOver, 30) ∧ c3Before.score = 30) := by
  refine ⟨?_, ?_, ?_, ?_, ?_, by decide, rfl⟩
  · intro next s s' hrun h
    rcases hc1 : collide s.board s.piece s.px (s.py + 1) with _ | b1
    · simp [tick, tickFull, hc1] at h
    · cases b1
      · simp [tick, tickFull, hc1] at h
        subst h
        simp [hrun, hc1]
      · rcases hc2 : collide (clearLines (mergeBoard s.board s.piece s.px s.py)).1
            next spawnPx 0 with _ | b2
        · simp [tick, tickFull, hc1, hc2] at h
        · cases b2
          · simp [tick, tickFull, hc1, hc2] at h
            subst h
            simp [hrun, hc2]
          · simp [tick, tickFull, hc1, hc2] at h
            subst h
            simp [hc1, hc2]
  · intro s s' h
    rcases hc : collide s.board s.piece (s.px - 1) s.py with _ | b
    · simp [moveLeft, hc] at h
    · cases b <;> simp [moveLeft, hc] at h <;> subst h <;> rfl
  · intro s s' h
    rcases hc : collide s.board s.piece (s.px + 1) s.py with _ | b
    · simp [moveRight, hc] at h
    · cases b <;> simp [moveRight, hc] at h <;> subst h <;> rfl
  · intro s s' h
    rcases hc : collide s.board s.piece s.px (s.py + 1) with _ | b
    · simp [softDrop, hc] at h
    · cases b <;> simp [softDrop, hc] at h <;> subst h <;> rfl
  · intro s s' h
    rcases hr : rotate s.piece with _ | np
    · simp [rotateCW, hr] at h
    · rcases hc : collide s.board np s.px s.py with _ | b
      · simp [rotateCW, hr, hc] at h
      · cases b <;> simp [rotateCW, hr, hc] at h <;> subst h <;> rfl

/-- C3 witness: the game-over scenario tick, via the characterisation. -/
theorem C3_witness : c3After.phase = .GameOver :=
  (C3_main.1 shapeO c3Before c3After rfl (by decide)).mpr ⟨by decide, by decide⟩

/-- C6 (as claimed).  In any Running state whose piece does not collide one
row lower, a tick moves the anchor down by exactly one row and changes
nothing else: board, score, piece shape and anchor column are untouched. -/
theorem C6_main (next : Shape) (s : GameState) (hrun : s.phase = .Running)
    (h : collide s.board s.piece s.px (s.py + 1) = some false) :
    ∃ s', tick next s = some s' ∧ s'.board = s.board ∧ s'.score = s.score ∧
      s'.piece = s.piece ∧ s'.px = s.px ∧ s'.py = s.py + 1 :=
  ⟨{ s with py := s.py + 1 }, by simp [tick, tickFull, h], rfl, rfl, rfl, rfl, rfl⟩

/-- C6 witness: the first tick after starting with the I-piece. -/
theorem C6_witness : ∃ s', tick shapeO (initState shapeI) = some s' ∧
    s'.board = (initState shapeI).board ∧ s'.score = (initState shapeI).score ∧
    s'.piece = (initState shapeI).piece ∧ s'.px = (initState shapeI).px ∧
    s'.py = (initState shapeI).py + 1 :=
  C6_main shapeO (initState shapeI) rfl (by decide)

/-- C8 (as claimed).  The score is a natural number (non-negative); the four
keyboard commands never change it; a tick never decreases it and increases it
by exactly `cleared * 10`, where `cleared` is the number of rows removed by
the lock step, and by 0 on a pure gravity step. -/
theorem C8_main :
    (∀ s s', moveLeft s = some s' → s'.score = s.score) ∧
    (∀ s s', moveRight s = some s' → s'.score = s.score) ∧
    (∀ s s', softDrop s = some s' → s'.score = s.score) ∧
    (∀ s s', rotateCW s = some s' → s'.score = s.score) ∧
    (∀ (next : Shape) (s s' : GameState), tick next s = some s' →
      s.score ≤ s'.score ∧
      s'.score = s.score + (if collide s.board s.piece s.px (s.py + 1) = some true
        then (clearLines (mergeBoard s.board s.piece s.px s.py)).2 * 10 else 0)) := by
  refine ⟨?_, ?_, ?_, ?_, ?_⟩
  · intro s s' h
    rcases hc : collide s.board s.piece (s.px - 1) s.py with _ | b
    · simp [moveLeft, hc] at h
    · cases b <;> simp [moveLeft, hc] at h <;> subst h <;> rfl
  · intro s s' h
    rcases hc : collide s.board s.piece (s.px + 1) s.py with _ | b
    · simp [moveRight, hc] at h
    · cases b <;> simp [moveRight, hc] at h <;> subst h <;> rfl
  · intro s s' h
    rcases hc : collide s.board s.piece s.px (s.py + 1) with _ | b
    · simp [softDrop, hc] at h
    · cases b <;> simp [softDrop, hc] at h <;> subst h <;> rfl
  · intro s s' h
    rcases hr : rotate s.piece with _ | np
    · simp [rotateCW, hr] at h
    · rcases hc : collide s.board np s.px s.py with _ | b
      · simp [rotateCW, hr, hc] at h
      · cases b <;> simp [rotateCW, hr, hc] at h <;> subst h <;> rfl
  · intro next s s' h
    rcases hc1 : collide s.board s.piece s.px (s.py + 1) with _ | b1
    · simp [tick, tickFull, hc1] at h
    · cases b1
      · simp [tick, tickFull, hc1] at h
        subst h
        simp [hc1]
      · rcases hc2 : collide (clearLines (mergeBoard s.board s.piece s.px s.py)).1
            next spawnPx 0 with _ | b2
        · simp [tick, tickFull, hc1, hc2] at h
        · cases b2 <;> simp [tick, tickFull, hc1, hc2] at h <;> subst h <;>
            simp [hc1, Nat.le_add_right]

/-- C8 witness: the scenario tick locks without clearing a row, leaving the
score at 30. -/
theorem C8_witness : c3After.score = 30 := by
  have h := C8_main.2.2.2.2 shapeO c3Before c3After (by decide)
  rw [h.2]
  decide

/-- C9 (amended).  A tick from a Running state renders in the gravity branch
and in the lock branch that stays Running, but on the tick that enters
GameOver the source executes `return gameOver()` before `draw()`: no render
is issued on that tick.  The boolean returned by `tickFull` records whether
`draw()` is reached. -/
theorem C9_main (next : Shape) (s s' : GameState) (b : Bool)
    (hrun : s.phase = .Running) (h : tickFull next s = some (s', b)) :
    b = false ↔ s'.phase = .GameOver := by
  rcases hc1 : collide s.board s.piece s.px (s.py + 1) with _ | b1
  · simp [tickFull, hc1] at h
  · cases b1
    · simp [tickFull, hc1] at h
      obtain ⟨h1, h2⟩ := h
      subst h1
      subst h2
      simp [hrun]
    · rcases hc2 : collide (clearLines (mergeBoard s.board s.piece s.px s.py)).1
          next spawnPx 0 with _ | b2
      · simp [tickFull, hc1, hc2] at h
      · cases b2 <;> simp [tickFull, hc1, hc2] at h <;> obtain ⟨h1, h2⟩ := h <;>
          subst h1 <;> subst h2 <;> simp [hrun]

/-- C9 counterexample.  On the game-over scenario tick the draw flag is
false: the game transitions to GameOver without issuing a render, contrary to
the claim that one render is still issued. -/
theorem C9_counterexample :
    tickFull shapeO c3Before = some (c3After, false) ∧ c3After.phase = .GameOver := by
  decide

/-- C9 witness: a gravity tick renders and does not end the game. -/
theorem C9_witness :
    ({ initState shapeI with py := 1 } : GameState).phase ≠ .GameOver := by
  intro hgo
  have h := C9_main shapeO (initState shapeI) { initState shapeI with py := 1 } true rfl
    (by decide)
  simpa using h.mpr hgo

/-- C10 (as claimed).  In every state reachable while the game is Running —
after `start()` and any sequence of ticks and keyboard commands — the active
piece does not collide at its current anchor: every occupied cell respects
the left, right and bottom boundaries and no cell overlaps a settled block. -/
theorem C10_main (s : GameState) (hs : Reachable s) :
    s.phase = .Running → collide s.board s.piece s.px s.py = some false := by
  induction hs with
  | init p hp =>
    intro _
    have hall : ∀ q ∈ SHAPES, collide newBoard q spawnPx 0 = some false := by decide
    exact hall p hp
  | tickStep next s s' hn hs hrun h ih =>
    intro hrun'
    rcases hc1 : collide s.board s.piece s.px (s.py + 1) with _ | b1
    · simp [tick, tickFull, hc1] at h
    · cases b1
      · simp [tick, tickFull, hc1] at h
        subst h
        exact hc1
      · rcases hc2 : collide (clearLines (mergeBoard s.board s.piece s.px s.py)).1
            next spawnPx 0 with _ | b2
        · simp [tick, tickFull, hc1, hc2] at h
        · cases b2
          · simp [tick, tickFull, hc1, hc2] at h
            subst h
            exact hc2
          · simp [tick, tickFull, hc1, hc2] at h
            subst h
            simp at hrun'
  | leftStep s s' hs h ih =>
    intro hrun'
    rcases hc : collide s.board s.piece (s.px - 1) s.py with _ | b
    · simp [moveLeft, hc] at h
    · cases b
      · simp [moveLeft, hc] at h
        subst h
        exact hc
      · simp [moveLeft, hc] at h
        subst h
        exact ih hrun'
  | rightStep s s' hs h ih =>
    intro hrun'
    rcases hc : collide s.board s.piece (s.px + 1) s.py with _ | b
    · simp [moveRight, hc] at h
    · cases b
      · simp [moveRight, hc] at h
        subst h
        exact hc
      · simp [moveRight, hc] at h
        subst h
        exact ih hrun'
  | dropStep s s' hs h ih =>
    intro hrun'
    rcases hc : collide s.board s.piece s.px (s.py + 1) with _ | b
    · simp [softDrop, hc] at h
    · cases b
      · simp [softDrop, hc] at h
        subst h
        exact hc
      · simp [softDrop, hc] at h
        subst h
        exact ih hrun'
  | rotStep s s' hs h ih =>
    intro hrun'
    rcases hr : rotate s.piece with _ | np
    · simp [rotateCW, hr] at h
    · rcases hc : collide s.board np s.px s.py with _ | b
      · simp [rotateCW, hr, hc] at h
      · cases b
        · simp [rotateCW, hr, hc] at h
          subst h
          exact hc
        · simp [rotateCW, hr, hc] at h
          subst h
          exact ih hrun'

/-- C10 witness: the initial state with the I-piece. -/
theorem C10_witness : collide newBoard shapeI spawnPx 0 = some false :=
  C10_main (initState shapeI) (Reachable.init shapeI (by decide)) rfl

lemma list_ext_getD {α : Type} (d : α) : ∀ (xs ys : List α), xs.length = ys.length →
    (∀ i, i < xs.length → xs.getD i d = ys.getD i d) → xs = ys
  | [], [], _, _ => rfl
  | [], _ :: _, h, _ => by simp at h
  | _ :: _, [], h, _ => by simp at h
  | x :: xs, y :: ys, h, hc => by
    have h0 := hc 0 (by simp)
    simp only [List.getD_cons_zero] at h0
    subst h0
    have htl : xs = ys := list_ext_getD d xs ys (by simpa using h) (fun i hi => by
      have hstep := hc (i + 1) (by simpa using Nat.succ_lt_succ hi)
      simpa only [List.getD_cons_succ] using hstep)
    rw [htl]

lemma getD_mem {α : Type} (l : List α) (i : Nat) (d : α) (h : i < l.length) :
    l.getD i d ∈ l := by
  rw [List.getD_eq_getElem l d h]
  exact List.getElem_mem h

lemma shape_ext (p q : Shape) (hlen : p.length = q.length)
    (hrow : ∀ i, i < p.length → (p.getD i []).length = (q.getD i []).length)
    (hcell : ∀ i j, i < p.length → j < (p.getD i []).length → cellOf p i j = cellOf q i j) :
    p = q := by
  apply list_ext_getD ([] : Row) p q hlen
  intro i hi
  apply list_ext_getD (0 : Cell) _ _ (hrow i hi)
  intro j hj
  exact hcell i j hi hj

lemma rotate_eq (p : Shape) (hp : p ≠ []) : rotate p = some (rotateFun p) := by
  cases p with
  | nil => exact absurd rfl hp
  | cons a l => rfl

lemma rotateFun_rows (p : Shape) (row : Row) (h : row ∈ rotateFun p) :
    row.length = p.length := by
  simp only [rotateFun, List.mem_reverse, List.mem_map, List.mem_range] at h
  obtain ⟨i, hi, rfl⟩ := h
  simp

lemma rotateFun_cell (p : Shape) (c : Nat) (hp : p ≠ [])
    (hrect : ∀ row ∈ p, row.length = c) (i j : Nat) (hi : i < c) (hj : j < p.length) :
    cellOf (rotateFun p) i j = cellOf p j (c - 1 - i) := by
  have hhead : (p.headD []).length = c := by
    cases p with
    | nil => exact absurd rfl hp
    | cons a l => exact hrect a (List.mem_cons_self a l)
  have hrw : rotateFun p =
      ((List.range c).map (fun k => p.map (fun r => r.getD k 0))).reverse := by
    rw [rotateFun, hhead]
  have hic : i < ((List.range c).map (fun k => p.map (fun r => r.getD k 0))).length := by
    simpa using hi
  have hsub : c - 1 - i < c := by omega
  have hrowi : (rotateFun p).getD i [] = p.map (fun r => r.getD (c - 1 - i) 0) := by
    rw [hrw, List.getD_eq_getElem?_getD, List.getElem?_reverse hic]
    simp only [List.length_map, List.length_range]
    rw [List.getElem?_map, List.getElem?_range hsub]
    rfl
  unfold cellOf
  rw [hrowi, List.getD_eq_getElem?_getD, List.getElem?_map, List.getElem?_eq_getElem hj,
    List.getD_eq_getElem p [] hj]
  rfl

lemma rotateFun_spec (p : Shape) (c : Nat) (hp : p ≠ [])
    (hrect : ∀ row ∈ p, row.length = c) :
    (rotateFun p).length = c ∧ (∀ row ∈ rotateFun p, row.length = p.length) ∧
      ∀ i j, i < c → j < p.length → cellOf (rotateFun p) i j = cellOf p j (c - 1 - i) := by
  have hhead : (p.headD []).length = c := by
    cases p with
    | nil => exact absurd rfl hp
    | cons a l => exact hrect a (List.mem_cons_self a l)
  have hlen2 : (rotateFun p).length = (p.headD []).length := by simp [rotateFun]
  exact ⟨hlen2.trans hhead, rotateFun_rows p,
    fun i j hi hj => rotateFun_cell p c hp hrect i j hi hj⟩

/-- C4 (as claimed, for actual shapes).  For every non-empty rectangular 0/1
layout with at least one column, four successive rotations return the
original layout cell for cell. -/
theorem C4_main (p : Shape) (c : Nat) (hp : p ≠ []) (hc : 0 < c)
    (hrect : ∀ row ∈ p, row.length = c) :
    ((((rotate p).bind rotate).bind rotate).bind rotate) = some p := by
  have hr : 0 < p.length := List.length_pos.mpr hp
  obtain ⟨h1len, h1rows, h1cell⟩ := rotateFun_spec p c hp hrect
  set p1 := rotateFun p with hp1def
  have hp1 : p1 ≠ [] := List.ne_nil_of_length_pos (by rw [h1len]; exact hc)
  obtain ⟨h2len, h2rows, h2cell⟩ := rotateFun_spec p1 p.length hp1 h1rows
  set p2 := rotateFun p1 with hp2def
  have hp2 : p2 ≠ [] := List.ne_nil_of_length_pos (by rw [h2len]; exact hr)
  have h2rows' : ∀ row ∈ p2, row.length = c := fun row hrow => by
    rw [h2rows row hrow, h1len]
  obtain ⟨h3len, h3rows, h3cell⟩ := rotateFun_spec p2 c hp2 h2rows'
  set p3 := rotateFun p2 with hp3def
  have hp3 : p3 ≠ [] := List.ne_nil_of_length_pos (by rw [h3len]; exact hc)
  have h3rows' : ∀ row ∈ p3, row.length = p.length := fun row hrow => by
    rw [h3rows row hrow, h2len]
  obtain ⟨h4len, h4rows, h4cell⟩ := rotateFun_spec p3 p.length hp3 h3rows'
  set p4 := rotateFun p3 with hp4def
  rw [rotate_eq p hp, ← hp1def]
  show ((rotate p1).bind rotate).bind rotate = some p
  rw [rotate_eq p1 hp1, ← hp2def]
  show (rotate p2).bind rotate = some p
  rw [rotate_eq p2 hp2, ← hp3def]
  show rotate p3 = some p
  rw [rotate_eq p3 hp3, ← hp4def]
  refine congrArg some (shape_ext p4 p (by rw [h4len]) ?_ ?_)
  · intro i hi
    have hi' : i < p.length := by rw [← h4len]; exact hi
    have hrow4 : (p4.getD i []).length = c := by
      rw [h4rows _ (getD_mem p4 i [] hi), h3len]
    have hrowp : (p.getD i []).length = c := hrect _ (getD_mem p i [] hi')
    rw [hrow4, hrowp]
  · intro i j hi hj
    have hi' : i < p.length := by rw [← h4len]; exact hi
    have hj' : j < c := by
      rw [h4rows _ (getD_mem p4 i [] hi), h3len] at hj
      exact hj
    calc cellOf p4 i j
        = cellOf p3 j (p.length - 1 - i) := h4cell i j hi' (by rw [h3len]; exact hj')
      _ = cellOf p2 (p.length - 1 - i) (c - 1 - j) :=
          h3cell j (p.length - 1 - i) hj' (by rw [h2len]; omega)
      _ = cellOf p1 (c - 1 - j) (p.length - 1 - (p.length - 1 - i)) :=
          h2cell (p.length - 1 - i) (c - 1 - j) (by omega) (by rw [h1len]; omega)
      _ = cellOf p1 (c - 1 - j) i :=
          congrArg (cellOf p1 (c - 1 - j))
            (by omega : p.length - 1 - (p.length - 1 - i) = i)
      _ = cellOf p i (c - 1 - (c - 1 - j)) := h1cell (c - 1 - j) i (by omega) hi'
      _ = cellOf p i j :=
          congrArg (cellOf p i) (by omega : c - 1 - (c - 1 - j) = j)

/-- C4 witness: four rotations of the L-piece. -/
theorem C4_witness :
    ((((rotate shapeL).bind rotate).bind rotate).bind rotate) = some shapeL :=
  C4_main shapeL 2 (by decide) (by decide) (by decide)

/-- C7 (amended).  For every non-empty rectangular shape of `r` rows and `c`
columns, `rotate` returns a fresh layout of `c` rows and `r` columns computed
by transposing and then reversing the row order — a 90° counter-clockwise
rotation: the cell at input position `[row][col]` appears at output position
`[c-1-col][row]` (not at `[col][r-1-row]`, which would be the clockwise
rotation). -/
theorem C7_main (p : Shape) (c : Nat) (hp : p ≠ [])
    (hrect : ∀ row ∈ p, row.length = c) :
    ∃ q, rotate p = some q ∧ q.length = c ∧ (∀ row ∈ q, row.length = p.length) ∧
      ∀ i j, i < p.length → j < c → cellOf q (c - 1 - j) i = cellOf p i j := by
  obtain ⟨hl, hrows, hcell⟩ := rotateFun_spec p c hp hrect
  refine ⟨rotateFun p, rotate_eq p hp, hl, hrows, fun i j hi hj => ?_⟩
  rw [hcell (c - 1 - j) i (by omega) hi]
  congr 1
  omega

/-- C7 counterexample.  `rotate [[1],[0]] = [[1,0]]` (counter-clockwise), but
the claimed clockwise mapping would put the input cell `[0][0] = 1` at output
position `[col][r-1-row] = [0][1]`, which actually holds 0. -/
theorem C7_counterexample :
    rotate [[1], [0]] = some [[1, 0]] ∧
      cellOf [[1, 0]] 0 1 ≠ cellOf [[1], [0]] 0 0 := by decide

/-- C7 witness: the amended rotation specification at the L-piece. -/
theorem C7_witness : ∃ q, rotate shapeL = some q ∧ q.length = 2 ∧
    (∀ row ∈ q, row.length = shapeL.length) ∧
    ∀ i j, i < shapeL.length → j < 2 → cellOf q (2 - 1 - j) i = cellOf shapeL i j :=
  C7_main shapeL 2 (by decide) (by decide)

end Tetris
